import Mathlib

/-!
Shallow embedding of the alert-detection engine and audit-commit pipeline of
`src/frontend/src/app/api/detect/detect.tsx` (the `detectAlerts`, `logToHedera`
and `POST` functions together with the module-level mutable maps
`pigPositionHistory` and `lastAlertTime`).

Modelling conventions:
* JavaScript numbers used as coordinates become `ℚ`; millisecond timestamps
  (`Date.now()`) become `Int`, so `currentTime - lastAlert` is exact signed
  subtraction as in JavaScript.
* The two module-level `Map`s become association lists inside an explicit
  `DetectState` threaded through the functions.
* The alert-key strings `"count_mismatch"` and `"inactivity_" + trackId` become
  the inductive `AlertKey`; the string forms are distinct and injective in the
  track identifier, so this is a bijective renaming of the code's keys.
* The source compares `Math.sqrt(dx*dx + dy*dy) < 50`; for nonnegative radicand
  this is equivalent to `dx*dx + dy*dy < 2500` (lemma `sqrt_lt_fifty_iff`
  below), which is how the test is embedded to keep it executable.
* The external ledger call wrapped by `logToHedera`'s try/catch is a parameter
  `ledger : Alert → Except String (String × Nat)` (error message, or
  topic-id × sequence number); the external detection backend's outcome is the
  `BackendResult` parameter of `POST`.
-/

/-- One observed subject in one frame (interface `Detection` in the source):
bounding box, confidence, class label, optional track identifier. -/
structure Detection where
  track_id : Option Nat
  x : ℚ
  y : ℚ
  width : ℚ
  height : ℚ
  confidence : ℚ
  class_name : String
deriving DecidableEq, Repr

/-- The `alert_type` discriminator of the source's `Alert` interface. -/
inductive AlertType where
  | count_mismatch : AlertType
  | inactivity_alert : AlertType
deriving DecidableEq, Repr

/-- The `severity` field of the source's `Alert` interface. -/
inductive Severity where
  | high : Severity
  | medium : Severity
deriving DecidableEq, Repr

/-- A fired alert (interface `Alert` in the source).  The source stores an ISO
string produced from the same clock as `currentTime`; the embedding keeps the
millisecond timestamp. -/
structure Alert where
  alert_type : AlertType
  severity : Severity
  timestamp : Int
  pig_id : Option Nat
  expected_count : Option Nat
  detected_count : Option Nat
  risk : String
  action : String
deriving DecidableEq, Repr

/-- One entry of a track's position history: bounding-box center and the
`Date.now()` timestamp at which it was recorded. -/
structure PositionSample where
  x : ℚ
  y : ℚ
  timestamp : Int
deriving DecidableEq, Repr

/-- Cooldown keys of the `lastAlertTime` map: the source uses the strings
`"count_mismatch"` and `"inactivity_" + trackId`. -/
inductive AlertKey where
  | count_mismatch : AlertKey
  | inactivity : Nat → AlertKey
deriving DecidableEq, Repr

/-- Association-list lookup with default, modelling `map.get(k)` with a
fallback (`|| 0` for `lastAlertTime`, ensured-empty for `pigPositionHistory`). -/
def alistGetD {α β : Type} [DecidableEq α] (m : List (α × β)) (k : α) (d : β) : β :=
  match m.find? (fun p => decide (p.1 = k)) with
  | some p => p.2
  | none => d

/-- Association-list update, modelling `map.set(k, v)`. -/
def alistSet {α β : Type} [DecidableEq α] (m : List (α × β)) (k : α) (v : β) :
    List (α × β) :=
  match m with
  | [] => [(k, v)]
  | p :: rest => if p.1 = k then (k, v) :: rest else p :: alistSet rest k v

/-- The process-wide mutable state of the module: the per-track position
history `pigPositionHistory` and the per-key cooldown table `lastAlertTime`. -/
structure DetectState where
  pigPositionHistory : List (Nat × List PositionSample)
  lastAlertTime : List (AlertKey × Int)
deriving DecidableEq, Repr

/-- The state at feed start: both maps empty. -/
def initState : DetectState := ⟨[], []⟩

/-- The count-mismatch alert the source pushes, with its literal risk/action
texts. -/
def countMismatchAlert (currentTime : Int) (expectedCount detectedCount : Nat) :
    Alert :=
  { alert_type := AlertType.count_mismatch
    severity := Severity.high
    timestamp := currentTime
    pig_id := none
    expected_count := some expectedCount
    detected_count := some detectedCount
    risk := if detectedCount < expectedCount then
        "Missing pig - possibly sick and hiding"
      else
        "Extra pig detected - unauthorized entry"
    action := "Perform physical headcount immediately" }

/-- The inactivity alert the source pushes for a track, with its literal
risk/action texts. -/
def inactivityAlert (currentTime : Int) (trackId : Nat) : Alert :=
  { alert_type := AlertType.inactivity_alert
    severity := Severity.medium
    timestamp := currentTime
    pig_id := some trackId
    expected_count := none
    detected_count := none
    risk := "Lethargy detected - possible illness or fever"
    action := "Check pig temperature and monitor closely" }

/-- The default sample used to read `recentHistory[0]` / its last element;
only read under the `length ≥ 5` guard, where it is never the result. -/
def dummySample : PositionSample := ⟨0, 0, 0⟩

/-- `const centerX = detection.x + detection.width / 2` of the source. -/
def centerX (detection : Detection) : ℚ := detection.x + detection.width / 2

/-- `const centerY = detection.y + detection.height / 2` of the source. -/
def centerY (detection : Detection) : ℚ := detection.y + detection.height / 2

/-- The trailing window the inactivity rule reads for one detection: the
track's stored history with the new center appended, then filtered to samples
strictly younger than 15000 ms (`currentTime - p.timestamp < 15000`). -/
def prunedWindow (s : DetectState) (trackId : Nat) (centerX centerY : ℚ)
    (currentTime : Int) : List PositionSample :=
  ((alistGetD s.pigPositionHistory trackId []) ++
      [({ x := centerX, y := centerY, timestamp := currentTime } : PositionSample)]).filter
    (fun p => decide (currentTime - p.timestamp < 15000))

/-- Squared straight-line distance between the oldest and newest sample of a
window; the source compares `Math.sqrt` of this quantity against 50, which for
a nonnegative radicand is the same as comparing this against 2500. -/
def windowDistSq (w : List PositionSample) : ℚ :=
  let firstPos := w.headD dummySample
  let lastPos := w.getLastD dummySample
  (lastPos.x - firstPos.x) * (lastPos.x - firstPos.x) +
    (lastPos.y - firstPos.y) * (lastPos.y - firstPos.y)

/-- The window the inactivity rule evaluates for one detection of track `tid`:
its stored history with the detection's center appended, pruned to 15 s. -/
def detWindow (s : DetectState) (tid : Nat) (d : Detection) (t : Int) :
    List PositionSample :=
  prunedWindow s tid (centerX d) (centerY d) t

/-- The body of the `detections.forEach` loop of `detectAlerts`: skip falsy
track identifiers (absent, or the number 0), append the bounding-box center to
the track's history, prune to the 15-second window, store the pruned window
back, and fire a MEDIUM inactivity alert when the window has at least 5
samples, the oldest-to-newest distance is below 50, and the track's own
30-second cooldown has elapsed. -/
def processDetection (currentTime : Int) (acc : List Alert × DetectState)
    (detection : Detection) : List Alert × DetectState :=
  match detection.track_id with
  | none => acc
  | some trackId =>
    if trackId = 0 then acc
    else
      let alerts := acc.1
      let s := acc.2
      let recentHistory := detWindow s trackId detection currentTime
      let s1 : DetectState :=
        { s with pigPositionHistory :=
            alistSet s.pigPositionHistory trackId recentHistory }
      if 5 ≤ recentHistory.length then
        if windowDistSq recentHistory < 2500 then
          let alertKey := AlertKey.inactivity trackId
          let lastAlert := alistGetD s1.lastAlertTime alertKey 0
          if 30000 < currentTime - lastAlert then
            (alerts ++ [inactivityAlert currentTime trackId],
             { s1 with lastAlertTime :=
                 alistSet s1.lastAlertTime alertKey currentTime })
          else (alerts, s1)
        else (alerts, s1)
      else (alerts, s1)

/-- `detectAlerts(detections, expectedCount)` of the source, with the clock and
the module-level maps passed explicitly: first the count-mismatch rule (HIGH,
gated by the `"count_mismatch"` cooldown), then the inactivity rule over each
detection in order. -/
def detectAlerts (detections : List Detection) (expectedCount : Nat)
    (currentTime : Int) (s : DetectState) : List Alert × DetectState :=
  let start :=
    if detections.length ≠ expectedCount then
      let lastAlert := alistGetD s.lastAlertTime AlertKey.count_mismatch 0
      if 30000 < currentTime - lastAlert then
        ([countMismatchAlert currentTime expectedCount detections.length],
         { s with lastAlertTime :=
             alistSet s.lastAlertTime AlertKey.count_mismatch currentTime })
      else ([], s)
    else ([], s)
  detections.foldl (processDetection currentTime) start

/-- The receipt returned by `logToHedera`: success with topic id and sequence
number, or failure with the caught error message. -/
structure AuditReceipt where
  success : Bool
  topic_id : Option String
  sequence : Option Nat
  error : Option String
deriving DecidableEq, Repr

/-- `logToHedera(alert)` of the source: the whole ledger interaction sits in a
try/catch, so a throwing ledger call becomes `{success: false, error}` and a
successful one `{success: true, topic_id, sequence}`; the function itself never
throws. -/
def logToHedera (ledger : Alert → Except String (String × Nat)) (alert : Alert) :
    AuditReceipt :=
  match ledger alert with
  | Except.ok r => { success := true, topic_id := some r.1,
                     sequence := some r.2, error := none }
  | Except.error e => { success := false, topic_id := none,
                        sequence := none, error := some e }

/-- The request-body fields of `POST` that matter to the core:
`expected_pig_count` is destructured with a default of 2, so `none` models a
request body missing the field. -/
structure RequestBody where
  expected_pig_count : Option Nat
deriving DecidableEq, Repr

/-- Outcome of the forwarded call to the Python detection backend:
the `fetch` threw, the response was not ok (status propagated), or it returned
a detection list (`data.detections || []`). -/
inductive BackendResult where
  | fetchError : BackendResult
  | notOk : Nat → BackendResult
  | ok : List Detection → BackendResult
deriving DecidableEq, Repr

/-- What `POST` returns to the caller: an error response with status and
message, or the success JSON carrying the alerts, their count and one Hedera
receipt per alert. -/
inductive PostResponse where
  | errorResp : Nat → String → PostResponse
  | success : List Alert → Nat → List AuditReceipt → PostResponse
deriving DecidableEq, Repr

/-- The `POST` handler of the source with its effects made explicit: a failed
backend call aborts the frame with an error response and untouched state; a
successful one runs `detectAlerts` with the (possibly defaulted) expected
count and maps `logToHedera` over the fired alerts. -/
def POST (ledger : Alert → Except String (String × Nat)) (body : RequestBody)
    (backend : BackendResult) (currentTime : Int) (s : DetectState) :
    PostResponse × DetectState :=
  match backend with
  | BackendResult.fetchError => (PostResponse.errorResp 500 "Internal server error", s)
  | BackendResult.notOk status =>
      (PostResponse.errorResp status "Backend processing failed", s)
  | BackendResult.ok detections =>
      let expected_pig_count := body.expected_pig_count.getD 2
      let out := detectAlerts detections expected_pig_count currentTime s
      let hederaReceipts := out.1.map (logToHedera ledger)
      (PostResponse.success out.1 out.1.length hederaReceipts, out.2)

/-- One orchestrator call's input: a detection batch, the expected count and
the frame's clock reading. -/
structure Frame where
  detections : List Detection
  expectedCount : Nat
  currentTime : Int
deriving DecidableEq, Repr

/-- Run `detectAlerts` over a sequence of frames, collecting each frame's
emitted alerts. -/
def runFrames (frames : List Frame) (s : DetectState) :
    List (List Alert) × DetectState :=
  match frames with
  | [] => ([], s)
  | f :: rest =>
    let out := detectAlerts f.detections f.expectedCount f.currentTime s
    let outRest := runFrames rest out.2
    (out.1 :: outRest.1, outRest.2)

/-- The trajectory of states of a run: the initial state and the state after
each frame. -/
def runStates (frames : List Frame) (s : DetectState) : List DetectState :=
  match frames with
  | [] => [s]
  | f :: rest =>
    s :: runStates rest (detectAlerts f.detections f.expectedCount f.currentTime s).2

/-- The cooldown key an emitted alert occupies: count-mismatch alerts the
`count_mismatch` key, inactivity alerts the `inactivity_<pig_id>` key. -/
def alertKeyOf (a : Alert) : Option AlertKey :=
  match a.alert_type with
  | AlertType.count_mismatch => some AlertKey.count_mismatch
  | AlertType.inactivity_alert => a.pig_id.map AlertKey.inactivity

/-- Timestamps of the alerts in a list that occupy cooldown key `k`. -/
def emittedTimesFor (k : AlertKey) (alerts : List Alert) : List Int :=
  (alerts.filter (fun a => decide (alertKeyOf a = some k))).map Alert.timestamp

/-- Justification of the distance embedding: for nonnegative rational `q`,
`Math.sqrt q < 50` is `q < 2500`. -/
theorem sqrt_lt_fifty_iff (q : ℚ) :
    Real.sqrt (q : ℝ) < 50 ↔ (q : ℝ) < 2500 := by
  rw [show (2500 : ℝ) = 50 ^ 2 by norm_num]
  exact Real.sqrt_lt' (by norm_num)

/-! ### Association-list lemmas -/

theorem alistGetD_set_self {α β : Type} [DecidableEq α] (m : List (α × β))
    (k : α) (v d : β) : alistGetD (alistSet m k v) k d = v := by
  induction m with
  | nil => simp [alistSet, alistGetD]
  | cons p rest ih =>
    by_cases h : p.1 = k
    · simp [alistSet, h, alistGetD]
    · simpa [alistSet, h, alistGetD, List.find?_cons] using ih

theorem alistGetD_set_ne {α β : Type} [DecidableEq α] (m : List (α × β))
    (k k' : α) (v d : β) (hne : k ≠ k') :
    alistGetD (alistSet m k v) k' d = alistGetD m k' d := by
  induction m with
  | nil => simp [alistSet, alistGetD, List.find?_cons, hne]
  | cons p rest ih =>
    by_cases h : p.1 = k
    · subst h
      simp [alistSet, alistGetD, List.find?_cons, hne]
    · by_cases h2 : p.1 = k'
      · have hne2 : ¬ (k' = k) := fun hh => hne hh.symm
        simp [alistSet, h, alistGetD, List.find?_cons, h2, hne2]
      · simpa [alistSet, h, alistGetD, List.find?_cons, h2] using ih

/-! ### Structural lemmas about `processDetection` -/

/-- The inactivity rule's full firing condition for one detection: enough
samples, small displacement, cooldown elapsed. -/
def inactivityFires (s : DetectState) (tid : Nat) (d : Detection) (t : Int) : Prop :=
  5 ≤ (detWindow s tid d t).length ∧ windowDistSq (detWindow s tid d t) < 2500 ∧
    30000 < t - alistGetD s.lastAlertTime (AlertKey.inactivity tid) 0

instance (s : DetectState) (tid : Nat) (d : Detection) (t : Int) :
    Decidable (inactivityFires s tid d t) := by
  unfold inactivityFires; infer_instance

/-- State after the Track History Store has recorded (and pruned) the window
for track `tid`. -/
def recordedState (s : DetectState) (tid : Nat) (d : Detection) (t : Int) :
    DetectState :=
  { s with pigPositionHistory := alistSet s.pigPositionHistory tid (detWindow s tid d t) }

/-- State after additionally stamping key `k`'s cooldown at time `t`. -/
def firedState (s : DetectState) (k : AlertKey) (t : Int) : DetectState :=
  { s with lastAlertTime := alistSet s.lastAlertTime k t }

/-- Full case analysis of one `forEach` iteration: a falsy track identifier is
a no-op; otherwise the window is recorded and the alert is appended exactly
when `inactivityFires` holds. -/
theorem processDetection_spec (t : Int) (alerts : List Alert) (s : DetectState)
    (d : Detection) :
    ((d.track_id = none ∨ d.track_id = some 0) ∧
      processDetection t (alerts, s) d = (alerts, s))
    ∨ ∃ tid, d.track_id = some tid ∧ tid ≠ 0 ∧
        ((inactivityFires s tid d t ∧
            processDetection t (alerts, s) d =
              (alerts ++ [inactivityAlert t tid],
               firedState (recordedState s tid d t) (AlertKey.inactivity tid) t))
         ∨ (¬ inactivityFires s tid d t ∧
            processDetection t (alerts, s) d = (alerts, recordedState s tid d t))) := by
  match hd : d.track_id with
  | none =>
    exact Or.inl ⟨Or.inl rfl, by simp [processDetection, hd]⟩
  | some tid =>
    by_cases h0 : tid = 0
    · exact Or.inl ⟨Or.inr (by rw [h0]), by simp [processDetection, hd, h0]⟩
    · refine Or.inr ⟨tid, rfl, h0, ?_⟩
      by_cases h5 : 5 ≤ (detWindow s tid d t).length
      · by_cases hdist : windowDistSq (detWindow s tid d t) < 2500
        · by_cases hcd : 30000 < t - alistGetD s.lastAlertTime (AlertKey.inactivity tid) 0
          · exact Or.inl ⟨⟨h5, hdist, hcd⟩,
              by simp [processDetection, hd, h0, h5, hdist, hcd,
                       firedState, recordedState]⟩
          · exact Or.inr ⟨by intro hf; unfold inactivityFires at hf; exact hcd hf.2.2,
              by simp [processDetection, hd, h0, h5, hdist, hcd, recordedState]⟩
        · exact Or.inr ⟨by intro hf; unfold inactivityFires at hf; exact hdist hf.2.1,
            by simp [processDetection, hd, h0, h5, hdist, recordedState]⟩
      · exact Or.inr ⟨by intro hf; unfold inactivityFires at hf; exact h5 hf.1,
          by simp [processDetection, hd, h0, h5, recordedState]⟩

/-- One iteration appends its alerts after the accumulator and changes state
independently of the accumulated alerts. -/
theorem processDetection_step (t : Int) (as : List Alert) (s : DetectState)
    (d : Detection) :
    processDetection t (as, s) d =
      (as ++ (processDetection t ([], s) d).1, (processDetection t ([], s) d).2) := by
  rcases processDetection_spec t as s d with ⟨_, h⟩ | ⟨tid, hd, h0, ⟨hf, h⟩ | ⟨hf, h⟩⟩ <;>
    rcases processDetection_spec t ([] : List Alert) s d with
      ⟨_, h'⟩ | ⟨tid', hd', h0', ⟨hf', h'⟩ | ⟨hf', h'⟩⟩ <;>
    simp_all

/-- The `forEach` fold appends its alerts after the accumulator and changes
state independently of the accumulated alerts. -/
theorem foldl_processDetection_step (t : Int) (ds : List Detection) :
    ∀ (as : List Alert) (s : DetectState),
      List.foldl (processDetection t) (as, s) ds =
        (as ++ (List.foldl (processDetection t) ([], s) ds).1,
         (List.foldl (processDetection t) ([], s) ds).2) := by
  induction ds with
  | nil => intro as s; simp
  | cons d ds ih =>
    intro as s
    simp only [List.foldl_cons]
    rw [processDetection_step t as s d, processDetection_step t [] s d]
    simp only [List.nil_append]
    rw [ih ((processDetection t ([], s) d).1) ((processDetection t ([], s) d).2)]
    rw [ih (as ++ (processDetection t ([], s) d).1) ((processDetection t ([], s) d).2)]
    simp [List.append_assoc]

/-- Every alert an iteration emits is an inactivity alert of the detection's
own nonzero track identifier, stamped with the current time. -/
theorem processDetection_alerts_shape (t : Int) (s : DetectState) (d : Detection)
    (a : Alert) (ha : a ∈ (processDetection t ([], s) d).1) :
    ∃ tid, tid ≠ 0 ∧ d.track_id = some tid ∧ a = inactivityAlert t tid := by
  rcases processDetection_spec t ([] : List Alert) s d with
    ⟨_, h⟩ | ⟨tid, hd, h0, ⟨hf, h⟩ | ⟨hf, h⟩⟩
  · rw [h] at ha; simp at ha
  · rw [h] at ha
    simp at ha
    exact ⟨tid, h0, hd, ha⟩
  · rw [h] at ha; simp at ha

/-- Every alert the `forEach` fold emits is an inactivity alert of some
nonzero track identifier occurring in the batch, stamped with the current
time. -/
theorem foldl_processDetection_alerts_shape (t : Int) (ds : List Detection) :
    ∀ (s : DetectState) (a : Alert),
      a ∈ (List.foldl (processDetection t) ([], s) ds).1 →
        ∃ tid d, tid ≠ 0 ∧ d ∈ ds ∧ d.track_id = some tid ∧ a = inactivityAlert t tid := by
  induction ds with
  | nil => intro s a ha; simp at ha
  | cons d ds ih =>
    intro s a ha
    rw [List.foldl_cons,
        foldl_processDetection_step t ds ((processDetection t ([], s) d).1)
          ((processDetection t ([], s) d).2)] at ha
    rcases List.mem_append.mp ha with hmem | hmem
    · obtain ⟨tid, h0, hd, hshape⟩ := processDetection_alerts_shape t s d a hmem
      exact ⟨tid, d, h0, List.mem_cons_self d ds, hd, hshape⟩
    · obtain ⟨tid, d', h0, hd', htrack, hshape⟩ :=
        ih ((processDetection t ([], s) d).2) a hmem
      exact ⟨tid, d', h0, List.mem_cons_of_mem d hd', htrack, hshape⟩

/-- `emittedTimesFor` distributes over list append. -/
theorem emittedTimesFor_append (k : AlertKey) (xs ys : List Alert) :
    emittedTimesFor k (xs ++ ys) = emittedTimesFor k xs ++ emittedTimesFor k ys := by
  simp [emittedTimesFor, List.filter_append]

/-- The count-mismatch rule's full firing condition: wrong headcount and the
`count_mismatch` cooldown elapsed. -/
def cmFires (s : DetectState) (detections : List Detection) (expectedCount : Nat)
    (t : Int) : Prop :=
  detections.length ≠ expectedCount ∧
    30000 < t - alistGetD s.lastAlertTime AlertKey.count_mismatch 0

instance (s : DetectState) (detections : List Detection) (expectedCount : Nat)
    (t : Int) : Decidable (cmFires s detections expectedCount t) := by
  unfold cmFires; infer_instance

/-- `foldl_processDetection_step`, stated on an accumulator pair. -/
theorem foldl_processDetection_acc (t : Int) (ds : List Detection)
    (acc : List Alert × DetectState) :
    List.foldl (processDetection t) acc ds =
      (acc.1 ++ (List.foldl (processDetection t) ([], acc.2) ds).1,
       (List.foldl (processDetection t) ([], acc.2) ds).2) := by
  obtain ⟨as, s⟩ := acc
  exact foldl_processDetection_step t ds as s

/-- `detectAlerts` when the count-mismatch rule fires: the HIGH alert leads the
output and the fold continues from the stamped state. -/
theorem detectAlerts_eq_fire (ds : List Detection) (e : Nat) (t : Int)
    (s : DetectState) (h1 : ds.length ≠ e)
    (h2 : 30000 < t - alistGetD s.lastAlertTime AlertKey.count_mismatch 0) :
    detectAlerts ds e t s =
      List.foldl (processDetection t)
        ([countMismatchAlert t e ds.length], firedState s AlertKey.count_mismatch t) ds := by
  simp [detectAlerts, h1, h2, firedState]

/-- `detectAlerts` when the count-mismatch rule does not fire: the fold starts
from the unchanged state with no alert. -/
theorem detectAlerts_eq_nofire (ds : List Detection) (e : Nat) (t : Int)
    (s : DetectState) (h : ¬ cmFires s ds e t) :
    detectAlerts ds e t s = List.foldl (processDetection t) ([], s) ds := by
  by_cases h1 : ds.length ≠ e
  · have h2 : ¬ 30000 < t - alistGetD s.lastAlertTime AlertKey.count_mismatch 0 :=
      fun hh => h ⟨h1, hh⟩
    simp [detectAlerts, h1, h2]
  · simp [detectAlerts, h1]

/-- One `forEach` iteration, seen through one cooldown key `k`: either it emits
nothing for `k` and leaves `k`'s stamp alone, or it emits exactly one alert for
`k` at the current time, the 30-second gap from `k`'s previous stamp held, and
`k`'s stamp becomes the current time. -/
theorem processDetection_key_ledger (t : Int) (s : DetectState) (d : Detection)
    (k : AlertKey) :
    (emittedTimesFor k (processDetection t ([], s) d).1 = [] ∧
      alistGetD (processDetection t ([], s) d).2.lastAlertTime k 0 =
        alistGetD s.lastAlertTime k 0)
    ∨ (emittedTimesFor k (processDetection t ([], s) d).1 = [t] ∧
       30000 < t - alistGetD s.lastAlertTime k 0 ∧
       alistGetD (processDetection t ([], s) d).2.lastAlertTime k 0 = t) := by
  rcases processDetection_spec t ([] : List Alert) s d with
    ⟨_, h⟩ | ⟨tid, hd, h0, ⟨hf, h⟩ | ⟨hf, h⟩⟩
  · left; rw [h]; simp [emittedTimesFor]
  · by_cases hk : k = AlertKey.inactivity tid
    · right
      subst hk
      rw [h]
      refine ⟨?_, hf.2.2, ?_⟩
      · simp [emittedTimesFor, alertKeyOf, inactivityAlert]
      · simp [firedState, recordedState, alistGetD_set_self]
    · left
      rw [h]
      have hk2 : AlertKey.inactivity tid ≠ k := fun hh => hk hh.symm
      refine ⟨?_, ?_⟩
      · simp [emittedTimesFor, alertKeyOf, inactivityAlert, hk, Ne.symm hk]
      · simp [firedState, recordedState,
              alistGetD_set_ne s.lastAlertTime (AlertKey.inactivity tid) k t 0 hk2]
  · left; rw [h]
    exact ⟨by simp [emittedTimesFor], by simp [recordedState]⟩

/-- The whole `forEach` fold, seen through one cooldown key `k`: either it
emits nothing for `k` and leaves `k`'s stamp alone, or it emits exactly one
alert for `k` at the current time, with the 30-second gap from `k`'s previous
stamp, and `k`'s stamp becomes the current time. -/
theorem foldl_key_ledger (t : Int) (ds : List Detection) :
    ∀ (s : DetectState) (k : AlertKey),
      (emittedTimesFor k (List.foldl (processDetection t) ([], s) ds).1 = [] ∧
        alistGetD (List.foldl (processDetection t) ([], s) ds).2.lastAlertTime k 0 =
          alistGetD s.lastAlertTime k 0)
      ∨ (emittedTimesFor k (List.foldl (processDetection t) ([], s) ds).1 = [t] ∧
         30000 < t - alistGetD s.lastAlertTime k 0 ∧
         alistGetD (List.foldl (processDetection t) ([], s) ds).2.lastAlertTime k 0 = t) := by
  induction ds with
  | nil => intro s k; left; exact ⟨by simp [emittedTimesFor], by simp⟩
  | cons d ds ih =>
    intro s k
    rw [List.foldl_cons, foldl_processDetection_acc t ds (processDetection t ([], s) d)]
    rcases processDetection_key_ledger t s d k with ⟨he, hl⟩ | ⟨he, hgap, hl⟩
    · rcases ih (processDetection t ([], s) d).2 k with ⟨he', hl'⟩ | ⟨he', hgap', hl'⟩
      · left
        exact ⟨by simp [emittedTimesFor_append, he, he'], by rw [hl', hl]⟩
      · right
        refine ⟨by simp [emittedTimesFor_append, he, he'], ?_, hl'⟩
        rw [hl] at hgap'
        exact hgap'
    · rcases ih (processDetection t ([], s) d).2 k with ⟨he', hl'⟩ | ⟨he', hgap', hl'⟩
      · right
        exact ⟨by simp [emittedTimesFor_append, he, he'], hgap, by rw [hl', hl]⟩
      · exfalso
        rw [hl] at hgap'
        omega

/-- `emittedTimesFor` computed on a cons cell. -/
theorem emittedTimesFor_cons (k : AlertKey) (a : Alert) (xs : List Alert) :
    emittedTimesFor k (a :: xs) =
      (if alertKeyOf a = some k then [a.timestamp] else []) ++ emittedTimesFor k xs := by
  by_cases h : alertKeyOf a = some k <;> simp [emittedTimesFor, List.filter_cons, h]

/-- The cooldown key of a count-mismatch alert. -/
theorem alertKeyOf_countMismatchAlert (t : Int) (e n : Nat) :
    alertKeyOf (countMismatchAlert t e n) = some AlertKey.count_mismatch := by
  simp [alertKeyOf, countMismatchAlert]

/-- One whole `detectAlerts` call, seen through one cooldown key `k`: either it
emits nothing for `k` and leaves `k`'s stamp alone, or it emits exactly one
alert for `k` stamped with the current time, the 30-second gap from `k`'s
previous stamp held, and `k`'s stamp becomes the current time. -/
theorem detectAlerts_key_ledger (ds : List Detection) (e : Nat) (t : Int)
    (s : DetectState) (k : AlertKey) :
    (emittedTimesFor k (detectAlerts ds e t s).1 = [] ∧
      alistGetD (detectAlerts ds e t s).2.lastAlertTime k 0 =
        alistGetD s.lastAlertTime k 0)
    ∨ (emittedTimesFor k (detectAlerts ds e t s).1 = [t] ∧
       30000 < t - alistGetD s.lastAlertTime k 0 ∧
       alistGetD (detectAlerts ds e t s).2.lastAlertTime k 0 = t) := by
  by_cases hcm : cmFires s ds e t
  · rw [detectAlerts_eq_fire ds e t s hcm.1 hcm.2,
        foldl_processDetection_step t ds [countMismatchAlert t e ds.length]
          (firedState s AlertKey.count_mismatch t)]
    by_cases hk : k = AlertKey.count_mismatch
    · subst hk
      have hset : alistGetD (firedState s AlertKey.count_mismatch t).lastAlertTime
          AlertKey.count_mismatch 0 = t := by
        simp [firedState, alistGetD_set_self]
      rcases foldl_key_ledger t ds (firedState s AlertKey.count_mismatch t)
          AlertKey.count_mismatch with ⟨he, hl⟩ | ⟨he, hgap, hl⟩
      · right
        refine ⟨?_, hcm.2, by simpa [hset] using hl⟩
        have hts : (countMismatchAlert t e ds.length).timestamp = t := rfl
        simp [emittedTimesFor_cons, alertKeyOf_countMismatchAlert, he, hts]
      · exfalso
        rw [hset] at hgap
        omega
    · have hk2 : AlertKey.count_mismatch ≠ k := fun hh => hk hh.symm
      have hset : alistGetD (firedState s AlertKey.count_mismatch t).lastAlertTime k 0 =
          alistGetD s.lastAlertTime k 0 := by
        simp [firedState,
              alistGetD_set_ne s.lastAlertTime AlertKey.count_mismatch k t 0 hk2]
      have hcmk : emittedTimesFor k [countMismatchAlert t e ds.length] = [] := by
        simp [emittedTimesFor, alertKeyOf_countMismatchAlert, hk2]
      rcases foldl_key_ledger t ds (firedState s AlertKey.count_mismatch t) k with
        ⟨he, hl⟩ | ⟨he, hgap, hl⟩
      · left
        exact ⟨by simp [emittedTimesFor_cons, alertKeyOf_countMismatchAlert, he, hk2],
               by simpa [hset] using hl⟩
      · right
        exact ⟨by simp [emittedTimesFor_cons, alertKeyOf_countMismatchAlert, he, hk2],
               by rw [hset] at hgap; exact hgap, by simpa using hl⟩
  · rw [detectAlerts_eq_nofire ds e t s hcm]
    exact foldl_key_ledger t ds s k

/-- Unfolding of `runFrames` on a cons cell. -/
theorem runFrames_cons (f : Frame) (fs : List Frame) (s : DetectState) :
    runFrames (f :: fs) s =
      ((detectAlerts f.detections f.expectedCount f.currentTime s).1 ::
         (runFrames fs (detectAlerts f.detections f.expectedCount f.currentTime s).2).1,
       (runFrames fs (detectAlerts f.detections f.expectedCount f.currentTime s).2).2) :=
  rfl

/-- The cooldown ledger over a whole run, seen through one key `k`: all
emissions for `k` are more than 30 s past the starting stamp, consecutive (and
hence any two) emissions are more than 30 s apart, and the final stamp is the
last (largest) emission time, or the starting stamp when nothing was emitted. -/
theorem runFrames_key_ledger (frames : List Frame) :
    ∀ (s : DetectState) (k : AlertKey),
      (∀ x ∈ emittedTimesFor k (runFrames frames s).1.flatten,
          30000 < x - alistGetD s.lastAlertTime k 0) ∧
      List.Pairwise (fun a b => 30000 < b - a)
        (emittedTimesFor k (runFrames frames s).1.flatten) ∧
      ((emittedTimesFor k (runFrames frames s).1.flatten = [] ∧
          alistGetD (runFrames frames s).2.lastAlertTime k 0 =
            alistGetD s.lastAlertTime k 0) ∨
       (alistGetD (runFrames frames s).2.lastAlertTime k 0 ∈
            emittedTimesFor k (runFrames frames s).1.flatten ∧
        ∀ x ∈ emittedTimesFor k (runFrames frames s).1.flatten,
            x ≤ alistGetD (runFrames frames s).2.lastAlertTime k 0)) := by
  induction frames with
  | nil =>
    intro s k
    refine ⟨?_, ?_, Or.inl ⟨?_, rfl⟩⟩ <;> simp [runFrames, emittedTimesFor]
  | cons f fs ih =>
    intro s k
    obtain ⟨hall, hpw, hlast⟩ :=
      ih (detectAlerts f.detections f.expectedCount f.currentTime s).2 k
    rcases detectAlerts_key_ledger f.detections f.expectedCount f.currentTime s k with
      ⟨he, hl⟩ | ⟨he, hgap, hl⟩
    · simp only [runFrames_cons, List.flatten_cons]
      rw [emittedTimesFor_append, he, List.nil_append]
      refine ⟨?_, hpw, ?_⟩
      · intro x hx
        have hx2 := hall x hx
        rw [hl] at hx2
        exact hx2
      · rcases hlast with ⟨hts, hfin⟩ | ⟨hmem, hbound⟩
        · exact Or.inl ⟨hts, by rw [hfin, hl]⟩
        · exact Or.inr ⟨hmem, hbound⟩
    · simp only [runFrames_cons, List.flatten_cons]
      rw [emittedTimesFor_append, he, List.singleton_append]
      have hall2 : ∀ x ∈ emittedTimesFor k
          (runFrames fs (detectAlerts f.detections f.expectedCount f.currentTime s).2).1.flatten,
          30000 < x - f.currentTime := by
        intro x hx
        have hx2 := hall x hx
        rw [hl] at hx2
        exact hx2
      refine ⟨?_, List.pairwise_cons.mpr ⟨hall2, hpw⟩, ?_⟩
      · intro x hx
        rcases List.mem_cons.mp hx with hx1 | hx2
        · rw [hx1]; exact hgap
        · have h1 := hall2 x hx2
          omega
      · rcases hlast with ⟨hts, hfin⟩ | ⟨hmem, hbound⟩
        · right
          rw [hts, hfin, hl]
          exact ⟨List.mem_singleton.mpr rfl, by intro x hx; simp at hx; omega⟩
        · right
          refine ⟨List.mem_cons_of_mem _ hmem, ?_⟩
          intro x hx
          rcases List.mem_cons.mp hx with hx1 | hx2
          · have h1 := hall2 _ hmem
            rw [hx1]
            omega
          · exact hbound x hx2

/-- The `forEach` fold never contributes count-mismatch alerts. -/
theorem foldl_no_count_mismatch (t : Int) (ds : List Detection) (s : DetectState) :
    (List.foldl (processDetection t) ([], s) ds).1.filter
      (fun a => decide (a.alert_type = AlertType.count_mismatch)) = [] := by
  rw [List.filter_eq_nil_iff]
  intro a ha
  obtain ⟨tid, d, h0, hd, htrack, hshape⟩ :=
    foldl_processDetection_alerts_shape t ds s a ha
  rw [hshape]
  simp [inactivityAlert]

/-- C1: one `detectAlerts` call emits a CountMismatch alert exactly when the
detection count differs from the expected count and the `count_mismatch`
cooldown shows no emission within the preceding 30 seconds (the stored stamp,
`0` when none, is more than 30000 ms old); the emission is a single alert with
severity HIGH carrying the expected and detected counts, and an equal count
emits no CountMismatch alert regardless of prior state. -/
theorem C1_count_mismatch_exact (detections : List Detection) (expectedCount : Nat)
    (currentTime : Int) (s : DetectState) :
    (detections.length = expectedCount →
      (detectAlerts detections expectedCount currentTime s).1.filter
        (fun a => decide (a.alert_type = AlertType.count_mismatch)) = [])
    ∧ (detections.length ≠ expectedCount →
        30000 < currentTime - alistGetD s.lastAlertTime AlertKey.count_mismatch 0 →
        (detectAlerts detections expectedCount currentTime s).1.filter
          (fun a => decide (a.alert_type = AlertType.count_mismatch)) =
          [countMismatchAlert currentTime expectedCount detections.length])
    ∧ (detections.length ≠ expectedCount →
        ¬ 30000 < currentTime - alistGetD s.lastAlertTime AlertKey.count_mismatch 0 →
        (detectAlerts detections expectedCount currentTime s).1.filter
          (fun a => decide (a.alert_type = AlertType.count_mismatch)) = [])
    ∧ (countMismatchAlert currentTime expectedCount detections.length).severity =
        Severity.high
    ∧ (countMismatchAlert currentTime expectedCount detections.length).expected_count =
        some expectedCount
    ∧ (countMismatchAlert currentTime expectedCount detections.length).detected_count =
        some detections.length := by
  refine ⟨?_, ?_, ?_, rfl, rfl, rfl⟩
  · intro h1
    have hno : ¬ cmFires s detections expectedCount currentTime := fun hh => hh.1 h1
    rw [detectAlerts_eq_nofire detections expectedCount currentTime s hno]
    exact foldl_no_count_mismatch currentTime detections s
  · intro h1 h2
    rw [detectAlerts_eq_fire detections expectedCount currentTime s h1 h2,
        foldl_processDetection_step currentTime detections
          [countMismatchAlert currentTime expectedCount detections.length]
          (firedState s AlertKey.count_mismatch currentTime)]
    have hty : (countMismatchAlert currentTime expectedCount detections.length).alert_type =
        AlertType.count_mismatch := rfl
    simp [List.filter_append, List.filter_cons, hty,
          foldl_no_count_mismatch currentTime detections
            (firedState s AlertKey.count_mismatch currentTime)]
  · intro h1 h2
    have hno : ¬ cmFires s detections expectedCount currentTime := fun hh => h2 hh.2
    rw [detectAlerts_eq_nofire detections expectedCount currentTime s hno]
    exact foldl_no_count_mismatch currentTime detections s

/-- Witness for C1 at a concrete input: an empty batch against expected count 2
at time 40000 from the initial state yields exactly the single HIGH
count-mismatch alert. -/
theorem C1_count_mismatch_exact_witness :
    (detectAlerts [] 2 40000 initState).1.filter
      (fun a => decide (a.alert_type = AlertType.count_mismatch)) =
      [countMismatchAlert 40000 2 0] :=
  (C1_count_mismatch_exact [] 2 40000 initState).2.1 (by decide) (by decide)

/-- C2: for a detection carrying a nonzero track identifier (zero is the falsy
guard's business, claim C9), the loop body stores the appended-and-pruned
window back into the track's history, and appends a MEDIUM inactivity alert
scoped to that track exactly when the stored window holds at least 5 samples,
the Euclidean oldest-to-newest distance is strictly below 50 units, and the
track's own 30-second cooldown has elapsed; a displacement of 50 units or more
never produces an alert. -/
theorem C2_inactivity_exact (currentTime : Int) (alerts : List Alert)
    (s : DetectState) (d : Detection) (tid : Nat)
    (htrack : d.track_id = some tid) (h0 : tid ≠ 0) :
    ((processDetection currentTime (alerts, s) d).1 =
        alerts ++ [inactivityAlert currentTime tid] ↔
      (5 ≤ (detWindow s tid d currentTime).length ∧
       Real.sqrt ((windowDistSq (detWindow s tid d currentTime) : ℚ) : ℝ) < 50 ∧
       30000 < currentTime - alistGetD s.lastAlertTime (AlertKey.inactivity tid) 0))
    ∧ (processDetection currentTime (alerts, s) d).2.pigPositionHistory =
        alistSet s.pigPositionHistory tid (detWindow s tid d currentTime)
    ∧ (50 ≤ Real.sqrt ((windowDistSq (detWindow s tid d currentTime) : ℚ) : ℝ) →
        (processDetection currentTime (alerts, s) d).1 = alerts)
    ∧ (inactivityAlert currentTime tid).severity = Severity.medium
    ∧ (inactivityAlert currentTime tid).pig_id = some tid := by
  have hsq : (Real.sqrt ((windowDistSq (detWindow s tid d currentTime) : ℚ) : ℝ) < 50) ↔
      windowDistSq (detWindow s tid d currentTime) < 2500 := by
    rw [sqrt_lt_fifty_iff]
    exact_mod_cast Iff.rfl
  rcases processDetection_spec currentTime alerts s d with
    ⟨hcase, h⟩ | ⟨tid', hd', h0', hcase⟩
  · rcases hcase with hnone | hzero
    · rw [htrack] at hnone; cases hnone
    · rw [htrack] at hzero
      injection hzero with hzero
      exact absurd hzero h0
  · rw [htrack] at hd'
    injection hd' with heq
    subst heq
    rcases hcase with ⟨hf, h⟩ | ⟨hnf, h⟩
    · unfold inactivityFires at hf
      refine ⟨?_, ?_, ?_, rfl, rfl⟩
      · rw [h]
        exact ⟨fun _ => ⟨hf.1, hsq.mpr hf.2.1, hf.2.2⟩, fun _ => rfl⟩
      · rw [h]; rfl
      · intro hge
        exact absurd (hsq.mpr hf.2.1) (not_lt.mpr hge)
    · refine ⟨?_, ?_, ?_, rfl, rfl⟩
      · rw [h]
        constructor
        · intro hh
          exfalso
          simp at hh
        · intro hrhs
          refine absurd ?_ hnf
          unfold inactivityFires
          exact ⟨hrhs.1, hsq.mp hrhs.2.1, hrhs.2.2⟩
      · rw [h]; rfl
      · intro _; rw [h]

/-- Concrete stored history for the C2 witness: track 1 with four stationary
samples inside the last 15 seconds. -/
def c2_state : DetectState :=
  ⟨[(1, [⟨100, 100, 100000⟩, ⟨100, 100, 101000⟩, ⟨100, 100, 102000⟩,
         ⟨100, 100, 103000⟩])], []⟩

/-- Concrete detection for the C2 witness: track 1, stationary at (100, 100). -/
def c2_det : Detection :=
  { track_id := some 1, x := 100, y := 100, width := 0, height := 0,
    confidence := 1, class_name := "pig" }

/-- Witness for C2 at a concrete input: track 1 of `c2_state` observed again at
time 104000. -/
theorem C2_inactivity_exact_witness :
    c2_det.track_id = some 1 ∧ (1 : Nat) ≠ 0 ∧
    (((processDetection 104000 ([], c2_state) c2_det).1 =
        [] ++ [inactivityAlert 104000 1] ↔
      (5 ≤ (detWindow c2_state 1 c2_det 104000).length ∧
       Real.sqrt ((windowDistSq (detWindow c2_state 1 c2_det 104000) : ℚ) : ℝ) < 50 ∧
       30000 < 104000 - alistGetD c2_state.lastAlertTime (AlertKey.inactivity 1) 0))
    ∧ (processDetection 104000 ([], c2_state) c2_det).2.pigPositionHistory =
        alistSet c2_state.pigPositionHistory 1 (detWindow c2_state 1 c2_det 104000)
    ∧ (50 ≤ Real.sqrt ((windowDistSq (detWindow c2_state 1 c2_det 104000) : ℚ) : ℝ) →
        (processDetection 104000 ([], c2_state) c2_det).1 = [])
    ∧ (inactivityAlert 104000 1).severity = Severity.medium
    ∧ (inactivityAlert 104000 1).pig_id = some 1) :=
  ⟨rfl, by decide, C2_inactivity_exact 104000 [] c2_state c2_det 1 rfl (by decide)⟩

/-- C3: per alert key, any two alerts emitted over a run are more than 30
seconds apart; a call that emits nothing for a key (in particular a suppressed
attempt) leaves that key's last-fired stamp untouched; and a persisting
count-mismatch condition fires again at any evaluation strictly more than 30
seconds past the key's stamp. -/
theorem C3_cooldown_policy :
    (∀ (frames : List Frame) (s : DetectState) (k : AlertKey),
      List.Pairwise (fun a b => 30000 < b - a)
        (emittedTimesFor k (runFrames frames s).1.flatten))
    ∧ (∀ (ds : List Detection) (e : Nat) (t : Int) (s : DetectState) (k : AlertKey),
        emittedTimesFor k (detectAlerts ds e t s).1 = [] →
        alistGetD (detectAlerts ds e t s).2.lastAlertTime k 0 =
          alistGetD s.lastAlertTime k 0)
    ∧ (∀ (ds : List Detection) (e : Nat) (t : Int) (s : DetectState),
        ds.length ≠ e →
        30000 < t - alistGetD s.lastAlertTime AlertKey.count_mismatch 0 →
        emittedTimesFor AlertKey.count_mismatch (detectAlerts ds e t s).1 = [t]) := by
  refine ⟨?_, ?_, ?_⟩
  · intro frames s k
    exact (runFrames_key_ledger frames s k).2.1
  · intro ds e t s k hnone
    rcases detectAlerts_key_ledger ds e t s k with ⟨_, hl⟩ | ⟨he, _, _⟩
    · exact hl
    · rw [hnone] at he
      cases he
  · intro ds e t s h1 h2
    rw [detectAlerts_eq_fire ds e t s h1 h2,
        foldl_processDetection_step t ds [countMismatchAlert t e ds.length]
          (firedState s AlertKey.count_mismatch t)]
    rcases foldl_key_ledger t ds (firedState s AlertKey.count_mismatch t)
        AlertKey.count_mismatch with ⟨he, _⟩ | ⟨_, hgap, _⟩
    · have hts : (countMismatchAlert t e ds.length).timestamp = t := rfl
      simp [emittedTimesFor_cons, alertKeyOf_countMismatchAlert, he, hts]
    · exfalso
      have hset : alistGetD (firedState s AlertKey.count_mismatch t).lastAlertTime
          AlertKey.count_mismatch 0 = t := by
        simp [firedState, alistGetD_set_self]
      rw [hset] at hgap
      omega

/-- Witness for C3 at a concrete input: the mismatching empty batch at time
40000 from the initial state emits the count-mismatch alert stamped 40000. -/
theorem C3_cooldown_policy_witness :
    emittedTimesFor AlertKey.count_mismatch (detectAlerts [] 2 40000 initState).1 =
      [40000] :=
  C3_cooldown_policy.2.2 [] 2 40000 initState (by decide) (by decide)

/-- C4: a frame whose backend call succeeded always returns a success response
carrying every fired alert and exactly one receipt per alert, positionally
correlated (receipt i is `logToHedera` of alert i); a throwing ledger call
turns into a `success := false` receipt with the error message and aborts
nothing. -/
theorem C4_receipts_per_alert (ledger : Alert → Except String (String × Nat))
    (body : RequestBody) (detections : List Detection) (currentTime : Int)
    (s : DetectState) :
    (POST ledger body (BackendResult.ok detections) currentTime s).1 =
      PostResponse.success
        (detectAlerts detections (body.expected_pig_count.getD 2) currentTime s).1
        (detectAlerts detections (body.expected_pig_count.getD 2) currentTime s).1.length
        ((detectAlerts detections (body.expected_pig_count.getD 2) currentTime s).1.map
          (logToHedera ledger))
    ∧ ((detectAlerts detections (body.expected_pig_count.getD 2) currentTime s).1.map
          (logToHedera ledger)).length =
        (detectAlerts detections (body.expected_pig_count.getD 2) currentTime s).1.length
    ∧ (∀ i : Nat,
        ((detectAlerts detections (body.expected_pig_count.getD 2) currentTime s).1.map
            (logToHedera ledger))[i]? =
          ((detectAlerts detections
              (body.expected_pig_count.getD 2) currentTime s).1[i]?).map
            (logToHedera ledger))
    ∧ (∀ (a : Alert) (e : String), ledger a = Except.error e →
        logToHedera ledger a =
          { success := false, topic_id := none, sequence := none, error := some e }) := by
  refine ⟨rfl, by simp, ?_, ?_⟩
  · intro i
    simp [List.getElem?_map]
  · intro a e he
    simp [logToHedera, he]

/-- Ledger stub for the C4 witness: every submission throws. -/
def c4_ledger : Alert → Except String (String × Nat) :=
  fun _ => Except.error "ledger down"

/-- Witness for C4 at a concrete input: a throwing ledger call yields the
failed receipt with its error message. -/
theorem C4_receipts_per_alert_witness :
    logToHedera c4_ledger (inactivityAlert 0 1) =
      { success := false, topic_id := none, sequence := none,
        error := some "ledger down" } :=
  (C4_receipts_per_alert c4_ledger { expected_pig_count := some 2 } [] 0
    initState).2.2.2 (inactivityAlert 0 1) "ledger down" rfl

/-- Ledger stub for the C5 counterexample: every submission throws. -/
def c5_ledger : Alert → Except String (String × Nat) :=
  fun _ => Except.error "ledger unavailable"

/-- A well-formed detection with no track identifier, used by the C5
counterexample. -/
def c5_det : Detection :=
  { track_id := none, x := 1, y := 2, width := 3, height := 4,
    confidence := 9 / 10, class_name := "pig" }

/-- Counterexample to C5 as stated: a request body missing `expectedCount`
(`expected_pig_count := none`) is not rejected — the frame is processed with
the default expected count 2, the count-mismatch rule evaluates and fires, the
response is a success, and the cooldown state is mutated. -/
theorem C5_counterexample :
    (POST c5_ledger { expected_pig_count := none }
        (BackendResult.ok [c5_det]) 40000 initState).1 =
      PostResponse.success [countMismatchAlert 40000 2 1] 1
        [{ success := false, topic_id := none, sequence := none,
           error := some "ledger unavailable" }]
    ∧ (POST c5_ledger { expected_pig_count := none }
        (BackendResult.ok [c5_det]) 40000 initState).2 ≠ initState := by
  constructor
  · rfl
  · decide

/-- C5 (amended): a request body missing `expectedCount` is not rejected; the
handler substitutes the default expected count 2 and processes the frame
exactly as if `expectedCount = 2` had been supplied, rule evaluation and state
mutation included. -/
theorem C5_amended_default_two (ledger : Alert → Except String (String × Nat))
    (backend : BackendResult) (t : Int) (s : DetectState) :
    POST ledger { expected_pig_count := none } backend t s =
      POST ledger { expected_pig_count := some 2 } backend t s := by
  cases backend <;> rfl

/-- C7: a failed backend call — non-ok HTTP status or a thrown fetch — aborts
the frame with a single error response to the caller and returns the state
untouched: no alerts are evaluated or submitted and neither map is mutated. -/
theorem C7_backend_failure_aborts (ledger : Alert → Except String (String × Nat))
    (body : RequestBody) (status : Nat) (t : Int) (s : DetectState) :
    POST ledger body (BackendResult.notOk status) t s =
      (PostResponse.errorResp status "Backend processing failed", s)
    ∧ POST ledger body BackendResult.fetchError t s =
      (PostResponse.errorResp 500 "Internal server error", s) :=
  ⟨rfl, rfl⟩

/-- Stationary detection on track 7 for the C6 scenario. -/
def c6_det7 : Detection :=
  { track_id := some 7, x := 100, y := 100, width := 0, height := 0,
    confidence := 1, class_name := "pig" }

/-- Stationary detection on track 8 for the C6 scenario. -/
def c6_det8 : Detection :=
  { track_id := some 8, x := 300, y := 100, width := 0, height := 0,
    confidence := 1, class_name := "pig" }

/-- One C6 scenario frame: both tracks present, chosen expected count. -/
def c6_frame (t : Int) (e : Nat) : Frame :=
  { detections := [c6_det7, c6_det8], expectedCount := e, currentTime := t }

/-- The C6 scenario: four matching frames building both histories, then a
mismatching fifth frame on which all three alert keys fire together. -/
def c6_frames : List Frame :=
  [c6_frame 100000 2, c6_frame 101000 2, c6_frame 102000 2, c6_frame 103000 2,
   c6_frame 104000 3]

/-- C6: cooldown state is per key — writing one key's stamp never changes
another key's stamp; a `detectAlerts` call writes a key's stamp exactly when
that key itself emits; and concretely, `inactivity_7` firing suppresses
neither `inactivity_8` nor `count_mismatch`: all three fire in the same
frame of the scenario run. -/
theorem C6_cooldown_key_independence :
    (∀ (m : List (AlertKey × Int)) (k k' : AlertKey) (v : Int), k ≠ k' →
      alistGetD (alistSet m k v) k' 0 = alistGetD m k' 0)
    ∧ (∀ (ds : List Detection) (e : Nat) (t : Int) (s : DetectState) (k : AlertKey),
        (emittedTimesFor k (detectAlerts ds e t s).1 = [] ∧
          alistGetD (detectAlerts ds e t s).2.lastAlertTime k 0 =
            alistGetD s.lastAlertTime k 0)
        ∨ (emittedTimesFor k (detectAlerts ds e t s).1 = [t] ∧
           alistGetD (detectAlerts ds e t s).2.lastAlertTime k 0 = t))
    ∧ (runFrames c6_frames initState).1 =
        [[], [], [], [],
         [countMismatchAlert 104000 3 2, inactivityAlert 104000 7,
          inactivityAlert 104000 8]] := by
  refine ⟨?_, ?_, ?_⟩
  · intro m k k' v hne
    exact alistGetD_set_ne m k k' v 0 hne
  · intro ds e t s k
    rcases detectAlerts_key_ledger ds e t s k with ⟨he, hl⟩ | ⟨he, _, hl⟩
    · exact Or.inl ⟨he, hl⟩
    · exact Or.inr ⟨he, hl⟩
  · norm_num [runFrames, detectAlerts, processDetection, detWindow, prunedWindow,
      windowDistSq, centerX, centerY, alistGetD, alistSet, emittedTimesFor,
      firedState, recordedState, initState, c6_frames, c6_frame, c6_det7, c6_det8,
      dummySample, List.foldl, List.filter, List.find?]
    decide

/-- Witness for C6 at a concrete input: stamping `inactivity_7` leaves
`inactivity_8`'s stamp unchanged. -/
theorem C6_cooldown_key_independence_witness :
    alistGetD (alistSet [] (AlertKey.inactivity 7) 104000) (AlertKey.inactivity 8) 0 =
      alistGetD ([] : List (AlertKey × Int)) (AlertKey.inactivity 8) 0 :=
  C6_cooldown_key_independence.1 [] (AlertKey.inactivity 7) (AlertKey.inactivity 8)
    104000 (by decide)

/-- One iteration never changes track 0's stored history (a zero identifier is
skipped; a nonzero one writes its own entry only). -/
theorem processDetection_history_zero (t : Int) (as : List Alert) (s : DetectState)
    (d : Detection) :
    alistGetD (processDetection t (as, s) d).2.pigPositionHistory 0 [] =
      alistGetD s.pigPositionHistory 0 [] := by
  rcases processDetection_spec t as s d with ⟨_, h⟩ | ⟨tid, _, h0, ⟨_, h⟩ | ⟨_, h⟩⟩ <;>
    rw [h] <;>
    simp [firedState, recordedState,
          alistGetD_set_ne s.pigPositionHistory tid 0 (detWindow s tid d t) [] h0]

/-- One iteration leaves the history of every track other than its own
untouched. -/
theorem processDetection_history_notin (t : Int) (as : List Alert)
    (s : DetectState) (d : Detection) (tid' : Nat)
    (hne : d.track_id ≠ some tid') :
    alistGetD (processDetection t (as, s) d).2.pigPositionHistory tid' [] =
      alistGetD s.pigPositionHistory tid' [] := by
  rcases processDetection_spec t as s d with ⟨_, h⟩ | ⟨tid, hd, h0, ⟨_, h⟩ | ⟨_, h⟩⟩
  · rw [h]
  · have htid : tid ≠ tid' := fun hh => hne (hh ▸ hd)
    rw [h]
    simp [firedState, recordedState,
          alistGetD_set_ne s.pigPositionHistory tid tid' (detWindow s tid d t) [] htid]
  · have htid : tid ≠ tid' := fun hh => hne (hh ▸ hd)
    rw [h]
    simp [firedState, recordedState,
          alistGetD_set_ne s.pigPositionHistory tid tid' (detWindow s tid d t) [] htid]

/-- The fold never changes track 0's stored history. -/
theorem foldl_history_zero (t : Int) (ds : List Detection) :
    ∀ (s : DetectState),
      alistGetD (List.foldl (processDetection t) ([], s) ds).2.pigPositionHistory 0 [] =
        alistGetD s.pigPositionHistory 0 [] := by
  induction ds with
  | nil => intro s; rfl
  | cons d ds ih =>
    intro s
    rw [List.foldl_cons, foldl_processDetection_acc t ds (processDetection t ([], s) d)]
    have h1 := ih (processDetection t ([], s) d).2
    rw [h1, processDetection_history_zero t [] s d]

/-- C9: a detection with `track_id = 0` is treated as untracked by the falsy
guard: processing it is a complete no-op, track 0's history is never written
by any `detectAlerts` call, and no emitted alert ever carries `pig_id = 0`. -/
theorem C9_track_zero_untracked :
    (∀ (t : Int) (acc : List Alert × DetectState) (d : Detection),
        d.track_id = some 0 → processDetection t acc d = acc)
    ∧ (∀ (ds : List Detection) (e : Nat) (t : Int) (s : DetectState),
        alistGetD (detectAlerts ds e t s).2.pigPositionHistory 0 [] =
          alistGetD s.pigPositionHistory 0 [])
    ∧ (∀ (ds : List Detection) (e : Nat) (t : Int) (s : DetectState) (a : Alert),
        a ∈ (detectAlerts ds e t s).1 → a.pig_id ≠ some 0) := by
  refine ⟨?_, ?_, ?_⟩
  · intro t acc d hzero
    simp [processDetection, hzero]
  · intro ds e t s
    by_cases hcm : cmFires s ds e t
    · rw [detectAlerts_eq_fire ds e t s hcm.1 hcm.2,
          foldl_processDetection_acc t ds
            ([countMismatchAlert t e ds.length], firedState s AlertKey.count_mismatch t)]
      have h1 := foldl_history_zero t ds (firedState s AlertKey.count_mismatch t)
      calc alistGetD (List.foldl (processDetection t)
              ([], firedState s AlertKey.count_mismatch t) ds).2.pigPositionHistory 0 []
          = alistGetD (firedState s AlertKey.count_mismatch t).pigPositionHistory 0 [] := h1
        _ = alistGetD s.pigPositionHistory 0 [] := rfl
    · rw [detectAlerts_eq_nofire ds e t s hcm]
      exact foldl_history_zero t ds s
  · intro ds e t s a ha
    by_cases hcm : cmFires s ds e t
    · rw [detectAlerts_eq_fire ds e t s hcm.1 hcm.2,
          foldl_processDetection_step t ds
            [countMismatchAlert t e ds.length]
            (firedState s AlertKey.count_mismatch t)] at ha
      rcases List.mem_append.mp ha with hmem | hmem
      · rcases List.mem_singleton.mp hmem with rfl
        intro hh
        cases hh
      · obtain ⟨tid, d', h0, _, _, hshape⟩ :=
          foldl_processDetection_alerts_shape t ds
            (firedState s AlertKey.count_mismatch t) a hmem
        rw [hshape]
        intro hh
        injection hh with hh
        exact h0 hh
    · rw [detectAlerts_eq_nofire ds e t s hcm] at ha
      obtain ⟨tid, d', h0, _, _, hshape⟩ :=
        foldl_processDetection_alerts_shape t ds s a ha
      rw [hshape]
      intro hh
      injection hh with hh
      exact h0 hh

/-- A detection with the present-but-falsy track identifier 0, for the C9
witness. -/
def c9_det : Detection :=
  { track_id := some 0, x := 5, y := 5, width := 2, height := 2,
    confidence := 1, class_name := "pig" }

/-- Witness for C9 at a concrete input: processing a `track_id = 0` detection
is a no-op. -/
theorem C9_track_zero_untracked_witness :
    processDetection 100000 ([], initState) c9_det = ([], initState) :=
  C9_track_zero_untracked.1 100000 ([], initState) c9_det rfl

/-- Tracked stationary detection for the C10 scenario (center (105, 105)). -/
def c10_det : Detection :=
  { track_id := some 1, x := 100, y := 100, width := 10, height := 10,
    confidence := 1, class_name := "pig" }

/-- One C10 scenario frame: the single tracked detection, matching expected
count (so only the inactivity rule is exercised). -/
def c10_frame (t : Int) : Frame :=
  { detections := [c10_det], expectedCount := 1, currentTime := t }

/-- The C10 scenario: five frames one second apart — 5 samples spanning only
4 seconds, far less than the 15-second window. -/
def c10_frames : List Frame :=
  [c10_frame 100000, c10_frame 101000, c10_frame 102000, c10_frame 103000,
   c10_frame 104000]

/-- C10: the inactivity rule has no minimum observation-duration gate: five
stationary samples accrued within 4 seconds (≪ 15 s) already fire the alert on
the fifth frame, and the stored window's timestamps 100000..104000 exhibit the
short span. -/
theorem C10_no_min_duration :
    (runFrames c10_frames initState).1 =
      [[], [], [], [], [inactivityAlert 104000 1]]
    ∧ (runFrames c10_frames initState).2.pigPositionHistory =
        [(1, [⟨105, 105, 100000⟩, ⟨105, 105, 101000⟩, ⟨105, 105, 102000⟩,
              ⟨105, 105, 103000⟩, ⟨105, 105, 104000⟩])] := by
  constructor <;>
    norm_num [runFrames, detectAlerts, processDetection, detWindow, prunedWindow,
      windowDistSq, centerX, centerY, alistGetD, alistSet, emittedTimesFor,
      firedState, recordedState, initState, c10_frames, c10_frame, c10_det,
      dummySample, List.foldl, List.filter, List.find?]

/-- Every stored track history is ordered by non-decreasing timestamp. -/
def histSorted (s : DetectState) : Prop :=
  ∀ tid, List.Pairwise (fun p q : PositionSample => p.timestamp ≤ q.timestamp)
    (alistGetD s.pigPositionHistory tid [])

/-- Every stored sample's timestamp is at most `T`. -/
def histBounded (s : DetectState) (T : Int) : Prop :=
  ∀ tid p, p ∈ alistGetD s.pigPositionHistory tid [] → p.timestamp ≤ T

/-- A bound on stored timestamps weakens to any later time. -/
theorem histBounded_mono {s : DetectState} {T T' : Int} (hb : histBounded s T)
    (hle : T ≤ T') : histBounded s T' :=
  fun tid p hp => le_trans (hb tid p hp) hle

/-- Recording one detection preserves sortedness and boundedness (at the
current time) of all track histories. -/
theorem processDetection_wf (t : Int) (as : List Alert) (s : DetectState)
    (d : Detection) (hs : histSorted s) (hb : histBounded s t) :
    histSorted (processDetection t (as, s) d).2 ∧
      histBounded (processDetection t (as, s) d).2 t := by
  have hwin : ∀ tid,
      List.Pairwise (fun p q : PositionSample => p.timestamp ≤ q.timestamp)
        (detWindow s tid d t) ∧
      (∀ p ∈ detWindow s tid d t, p.timestamp ≤ t) := by
    intro tid
    constructor
    · refine List.Pairwise.sublist (List.filter_sublist _) ?_
      rw [List.pairwise_append]
      refine ⟨hs tid, List.pairwise_singleton _ _, ?_⟩
      intro p hp q hq
      rw [List.mem_singleton] at hq
      subst hq
      exact hb tid p hp
    · intro p hp
      have hp2 := (List.mem_filter.mp hp).1
      rcases List.mem_append.mp hp2 with hmem | hmem
      · exact hb tid p hmem
      · rw [List.mem_singleton] at hmem
        subst hmem
        exact le_refl t
  have hrec : ∀ tid, histSorted (recordedState s tid d t) ∧
      histBounded (recordedState s tid d t) t := by
    intro tid
    constructor
    · intro tid'
      by_cases heq : tid = tid'
      · subst heq
        rw [show (recordedState s tid d t).pigPositionHistory =
              alistSet s.pigPositionHistory tid (detWindow s tid d t) from rfl,
            alistGetD_set_self]
        exact (hwin tid).1
      · rw [show (recordedState s tid d t).pigPositionHistory =
              alistSet s.pigPositionHistory tid (detWindow s tid d t) from rfl,
            alistGetD_set_ne s.pigPositionHistory tid tid' (detWindow s tid d t) [] heq]
        exact hs tid'
    · intro tid' p hp
      by_cases heq : tid = tid'
      · subst heq
        rw [show (recordedState s tid d t).pigPositionHistory =
              alistSet s.pigPositionHistory tid (detWindow s tid d t) from rfl,
            alistGetD_set_self] at hp
        exact (hwin tid).2 p hp
      · rw [show (recordedState s tid d t).pigPositionHistory =
              alistSet s.pigPositionHistory tid (detWindow s tid d t) from rfl,
            alistGetD_set_ne s.pigPositionHistory tid tid' (detWindow s tid d t) [] heq] at hp
        exact hb tid' p hp
  rcases processDetection_spec t as s d with ⟨_, h⟩ | ⟨tid, _, _, ⟨_, h⟩ | ⟨_, h⟩⟩ <;>
    rw [h]
  · exact ⟨hs, hb⟩
  · exact hrec tid
  · exact hrec tid

/-- The whole `forEach` fold preserves sortedness and boundedness. -/
theorem foldl_wf (t : Int) (ds : List Detection) :
    ∀ (s : DetectState), histSorted s → histBounded s t →
      histSorted (List.foldl (processDetection t) ([], s) ds).2 ∧
        histBounded (List.foldl (processDetection t) ([], s) ds).2 t := by
  induction ds with
  | nil => intro s hs hb; exact ⟨hs, hb⟩
  | cons d ds ih =>
    intro s hs hb
    rw [List.foldl_cons, foldl_processDetection_acc t ds (processDetection t ([], s) d)]
    obtain ⟨hs1, hb1⟩ := processDetection_wf t [] s d hs hb
    exact ih (processDetection t ([], s) d).2 hs1 hb1

/-- One `detectAlerts` call preserves sortedness and boundedness (at the
current time): the count-mismatch rule never touches histories. -/
theorem detectAlerts_wf (ds : List Detection) (e : Nat) (t : Int)
    (s : DetectState) (hs : histSorted s) (hb : histBounded s t) :
    histSorted (detectAlerts ds e t s).2 ∧ histBounded (detectAlerts ds e t s).2 t := by
  by_cases hcm : cmFires s ds e t
  · rw [detectAlerts_eq_fire ds e t s hcm.1 hcm.2,
        foldl_processDetection_acc t ds
          ([countMismatchAlert t e ds.length], firedState s AlertKey.count_mismatch t)]
    exact foldl_wf t ds (firedState s AlertKey.count_mismatch t) hs hb
  · rw [detectAlerts_eq_nofire ds e t s hcm]
    exact foldl_wf t ds s hs hb

/-- Along a run with non-decreasing clock readings (bounded below by a bound
on the starting state), every intermediate state has sorted histories. -/
theorem runStates_wf (frames : List Frame) :
    ∀ (s : DetectState) (T : Int), histSorted s → histBounded s T →
      List.Chain' (· ≤ ·) (T :: frames.map Frame.currentTime) →
      ∀ s' ∈ runStates frames s, histSorted s' := by
  induction frames with
  | nil =>
    intro s T hs _ _ s' hs'
    simp [runStates] at hs'
    subst hs'
    exact hs
  | cons f fs ih =>
    intro s T hs hb hch s' hs'
    rw [List.map_cons, List.chain'_cons] at hch
    obtain ⟨hTle, hch2⟩ := hch
    have hb2 : histBounded s f.currentTime := histBounded_mono hb hTle
    obtain ⟨hs1, hb1⟩ :=
      detectAlerts_wf f.detections f.expectedCount f.currentTime s hs hb2
    rw [show runStates (f :: fs) s =
          s :: runStates fs (detectAlerts f.detections f.expectedCount
            f.currentTime s).2 from rfl] at hs'
    rcases List.mem_cons.mp hs' with rfl | hmem
    · exact hs
    · exact ih (detectAlerts f.detections f.expectedCount f.currentTime s).2
        f.currentTime hs1 hb1 hch2 s' hmem

/-- The fold leaves the history of a track mentioned by no detection of the
batch untouched. -/
theorem foldl_history_notin (t : Int) (ds : List Detection) :
    ∀ (s : DetectState) (tid : Nat), (∀ d ∈ ds, d.track_id ≠ some tid) →
      alistGetD (List.foldl (processDetection t) ([], s) ds).2.pigPositionHistory
        tid [] = alistGetD s.pigPositionHistory tid [] := by
  induction ds with
  | nil => intro s tid _; rfl
  | cons d ds ih =>
    intro s tid hnotin
    rw [List.foldl_cons, foldl_processDetection_acc t ds (processDetection t ([], s) d)]
    rw [ih (processDetection t ([], s) d).2 tid
          (fun d' hd' => hnotin d' (List.mem_cons_of_mem d hd')),
        processDetection_history_notin t [] s d tid (hnotin d (List.mem_cons_self d ds))]

/-- A `detectAlerts` call leaves the history of a track mentioned by no
detection of the batch untouched. -/
theorem detectAlerts_history_notin (ds : List Detection) (e : Nat) (t : Int)
    (s : DetectState) (tid : Nat) (hnotin : ∀ d ∈ ds, d.track_id ≠ some tid) :
    alistGetD (detectAlerts ds e t s).2.pigPositionHistory tid [] =
      alistGetD s.pigPositionHistory tid [] := by
  by_cases hcm : cmFires s ds e t
  · rw [detectAlerts_eq_fire ds e t s hcm.1 hcm.2,
        foldl_processDetection_acc t ds
          ([countMismatchAlert t e ds.length], firedState s AlertKey.count_mismatch t)]
    exact foldl_history_notin t ds (firedState s AlertKey.count_mismatch t) tid hnotin
  · rw [detectAlerts_eq_nofire ds e t s hcm]
    exact foldl_history_notin t ds s tid hnotin

/-- A whole run leaves untouched the history of a track mentioned in no frame
of the run. -/
theorem runFrames_history_notin (frames : List Frame) :
    ∀ (s : DetectState) (tid : Nat),
      (∀ f ∈ frames, ∀ d ∈ f.detections, d.track_id ≠ some tid) →
      alistGetD (runFrames frames s).2.pigPositionHistory tid [] =
        alistGetD s.pigPositionHistory tid [] := by
  induction frames with
  | nil => intro s tid _; rfl
  | cons f fs ih =>
    intro s tid hnotin
    have hstep : (runFrames (f :: fs) s).2 =
        (runFrames fs (detectAlerts f.detections f.expectedCount
          f.currentTime s).2).2 := rfl
    rw [hstep,
        ih (detectAlerts f.detections f.expectedCount f.currentTime s).2 tid
          (fun f' hf' => hnotin f' (List.mem_cons_of_mem f hf')),
        detectAlerts_history_notin f.detections f.expectedCount f.currentTime s tid
          (hnotin f (List.mem_cons_self f fs))]

/-- C8: along any run with non-decreasing clock readings from feed start,
every stored track history is at all times ordered by non-decreasing
timestamps; the window the inactivity rule reads (right after recording) holds
only samples strictly within 15 seconds of the current time; and reading a
track identifier never recorded — at feed start, or after any run that never
saw it — yields the empty sequence. -/
theorem C8_history_invariants :
    (∀ (frames : List Frame),
        List.Chain' (· ≤ ·) (frames.map Frame.currentTime) →
        ∀ s' ∈ runStates frames initState, ∀ tid,
          List.Pairwise (fun p q : PositionSample => p.timestamp ≤ q.timestamp)
            (alistGetD s'.pigPositionHistory tid []))
    ∧ (∀ (s : DetectState) (tid : Nat) (d : Detection) (t : Int),
        ∀ p ∈ detWindow s tid d t, t - p.timestamp < 15000)
    ∧ (∀ tid : Nat, alistGetD initState.pigPositionHistory tid [] = [])
    ∧ (∀ (frames : List Frame) (tid : Nat),
        (∀ f ∈ frames, ∀ d ∈ f.detections, d.track_id ≠ some tid) →
        alistGetD (runFrames frames initState).2.pigPositionHistory tid [] = []) := by
  refine ⟨?_, ?_, ?_, ?_⟩
  · intro frames hch s' hs' tid
    have hs0 : histSorted initState := by
      intro tid'
      rw [show alistGetD initState.pigPositionHistory tid' [] = [] from rfl]
      exact List.Pairwise.nil
    cases frames with
    | nil =>
      simp [runStates] at hs'
      subst hs'
      exact hs0 tid
    | cons f fs =>
      have hb0 : histBounded initState f.currentTime := by
        intro tid' p hp
        rw [show alistGetD initState.pigPositionHistory tid' [] = [] from rfl] at hp
        cases hp
      have hch2 : List.Chain' (· ≤ ·)
          (f.currentTime :: (f :: fs).map Frame.currentTime) := by
        rw [List.map_cons, List.chain'_cons]
        exact ⟨le_refl _, by rw [List.map_cons] at hch; exact hch⟩
      exact runStates_wf (f :: fs) initState f.currentTime hs0 hb0 hch2 s' hs' tid
  · intro s tid d t p hp
    have hp2 := (List.mem_filter.mp hp).2
    exact of_decide_eq_true hp2
  · intro tid
    rfl
  · intro frames tid hnotin
    exact (runFrames_history_notin frames initState tid hnotin).trans rfl

/-- Witness for C8 at a concrete input: track 3 appears in no frame of the
C6 scenario run, so its history reads back empty afterwards. -/
theorem C8_history_invariants_witness :
    alistGetD (runFrames c6_frames initState).2.pigPositionHistory 3 [] = [] :=
  C8_history_invariants.2.2.2 c6_frames 3 (by decide)
